import Mathlib

/-!
Shallow embedding of the Lovelace scheduled-event service
(`src/lib/ScheduledEventService.ts`, canonical `customRoleId`-annotating
variant) and the startup reconciliation listener
(`src/listeners/event-roles/eventInit.ts`).

External collaborators (Discord API, MySQL store, work queue) are modelled
as oracles in an environment record; the service's own state (persisted
event records, roles created so far, queue signals, queued assignments) is
threaded explicitly.  External calls that can throw are modelled with
`Except ExtError`; a `try`/`catch` in the source becomes a `match` that
maps `.error` to the catch branch's result.
-/

namespace Lovelace

/-- Recurrence descriptor of a scheduled event
(`GuildScheduledEventRecurrenceRule`): only the `frequency` field is read
by this code base.  Discord delivers 0..3 but the switch in
`createCustomRole` is defined on any number, so we use `Int`. -/
structure RecurrenceRule where
  frequency : Int
deriving DecidableEq

/-- A guild member as seen after `member.fetch()`: its user id and the
freshly fetched set of role ids (`member.roles.cache`, projected to ids,
which is all the listener reads). -/
structure Member where
  userId : String
  roles : List String
deriving DecidableEq

/-- One entry of `event.fetchSubscribers({ withMember: true })`: the user id
and the optional member (the listener skips subscribers without one).
`member`, when present, already carries the post-`fetch()` role set. -/
structure Subscriber where
  userId : String
  member : Option Member
deriving DecidableEq

/-- A Discord scheduled event, restricted to the fields this repository
reads.  `hasGuild` models whether `scheduledEvent.guild` is resolvable;
`scheduledStartTimestamp` is the optional start time in milliseconds since
the Unix epoch. -/
structure ScheduledEvent where
  id : String
  name : String
  hasGuild : Bool
  scheduledStartTimestamp : Option Int
  recurrenceRule : Option RecurrenceRule
  subscribers : List Subscriber
deriving DecidableEq

/-- A guild role: id and name (the only fields this code base depends on
from `roles.create`). -/
structure Role where
  id : String
  name : String
deriving DecidableEq

/-- Persisted database row `{eventId, roleId}` written by
`database.createScheduledEvent` and read by `database.findScheduledEvent`. -/
structure EventRecord where
  eventId : String
  roleId : String
deriving DecidableEq

/-- An assignment intent handed to `customRoleQueue.queueAssignment(event,
member.user)`: the event and the user to receive the event role. -/
structure Assignment where
  eventId : String
  userId : String
deriving DecidableEq

/-- The event returned by `processEvent` with the `customRoleId`
annotation attached (`GuildScheduledEvent & \x7b customRoleId: string \x7d`). -/
structure ResolvedEvent where
  event : ScheduledEvent
  customRoleId : String
deriving DecidableEq

/-- Errors thrown by the external persistence store or data source. -/
inductive ExtError
  | dbError
  | apiError
deriving DecidableEq

/-! ## Role-name policy (`createCustomRole`, lines 142-165) -/

/-- The `switch (frequency)` in `createCustomRole`: 0..3 map to the four
labels, every other value leaves `freqString` at its initial `""`. -/
def freqString (frequency : Int) : String :=
  if frequency = 0 then "Yearly"
  else if frequency = 1 then "Monthly"
  else if frequency = 2 then "Weekly"
  else if frequency = 3 then "Daily"
  else ""

/-- `scheduledEvent.scheduledStartTimestamp || new Date(0)`: JavaScript
`||` falls back to the epoch when the timestamp is absent, and also when it
is the (falsy) number 0. -/
def startFallback : Option Int → Int
  | none => 0
  | some t => if t = 0 then 0 else t

/-- Three-letter month abbreviation for month numbers 1..12 (the `MMM`
token of the display pattern). -/
def monthAbbrev (m : Nat) : String :=
  [ "Jan", "Feb", "Mar", "Apr", "May", "Jun",
    "Jul", "Aug", "Sep", "Oct", "Nov", "Dec" ].getD (m - 1) ""

/-- Zero-padded two-digit rendering of a number (the `DD`, `HH` and `mm`
tokens of the display pattern). -/
def pad2 (n : Nat) : String :=
  if n < 10 then "0" ++ toString n else toString n

/-- Civil (year, month, day) from a count of days since 1970-01-01,
proleptic Gregorian calendar (Howard Hinnant's `civil_from_days`,
specialised to non-negative day counts). -/
def civilFromDays (z : Nat) : Nat × Nat × Nat :=
  let z2 := z + 719468
  let era := z2 / 146097
  let doe := z2 % 146097
  let yoe := (doe - doe / 1460 + doe / 36524 - doe / 146096) / 365
  let doy := doe - (365 * yoe + yoe / 4 - yoe / 100)
  let mp := (5 * doy + 2) / 153
  let d := doy - (153 * mp + 2) / 5 + 1
  let m := if mp < 10 then mp + 3 else mp - 9
  let y := yoe + era * 400
  (if m ≤ 2 then y + 1 else y, m, d)

/-- Model of the external `new Timestamp('MMM-DD HH:mm').display(time)`
from `@sapphire/timestamp`: month abbreviation, zero-padded day, 24-hour
time, rendered here at UTC offset zero for non-negative millisecond
timestamps. -/
def displayTimestamp (ms : Int) : String :=
  let msNat := ms.toNat
  let days := msNat / 86400000
  let msOfDay := msNat % 86400000
  let civil := civilFromDays days
  monthAbbrev civil.2.1 ++ "-" ++ pad2 civil.2.2 ++ " " ++
    pad2 (msOfDay / 3600000) ++ ":" ++ pad2 (msOfDay % 3600000 / 60000)

/-- The role name computed by `createCustomRole` (lines 142-165),
parameterised by the `reasonableTruncate` helper (imported from
`./utils`, external to the service): recurring events get the frequency
label, non-recurring events get the formatted start time, each in square
brackets after the truncated event name. -/
def roleName (truncate : String → String) (e : ScheduledEvent) : String :=
  match e.recurrenceRule with
  | none =>
      truncate e.name ++ " [" ++
        displayTimestamp (startFallback e.scheduledStartTimestamp) ++ "]"
  | some rule =>
      truncate e.name ++ " [" ++ freqString rule.frequency ++ "]"

example : displayTimestamp 0 = "Jan-01 00:00" := by decide
example : displayTimestamp 1741024800000 = "Mar-03 18:00" := by decide

/-! ## Service state and external oracles -/

/-- Observable state threaded through the service and the listener:
the persistence store's rows, the guild roles created so far, the number
of `customRoleQueue.processQueues()` signals sent, and the assignment
intents handed to `customRoleQueue.queueAssignment`. -/
structure ServiceState where
  db : List EventRecord
  createdRoles : List Role
  drainSignals : Nat
  assignments : List Assignment
deriving DecidableEq

/-- `database.findScheduledEvent(eventId)`: first row whose key matches. -/
def lookupRecord (db : List EventRecord) (eventId : String) :
    Option EventRecord :=
  db.find? (fun rec => rec.eventId = eventId)

/-- Oracle outcomes of one round of external calls.  `findResult` says
whether `database.findScheduledEvent` throws (the row itself comes from
the state); `createRoleResult` is the id handed back by `roles.create`
(`.ok none` models a null result); `writeResult` is the `affectedRows`
reported by `database.createScheduledEvent`; `fetchRoleResult` is the
outcome of `guild.roles.fetch`; `fetchSubscribersResult` says whether
`event.fetchSubscribers` throws; `truncate` is the `reasonableTruncate`
helper imported from `./utils`. -/
structure Env where
  findResult : Except ExtError Unit
  createRoleResult : Except ExtError (Option String)
  writeResult : Except ExtError Nat
  fetchRoleResult : Except ExtError (Option Role)
  fetchSubscribersResult : Except ExtError Unit
  truncate : String → String

/-! ## ScheduleEventsService -/

/-- `createCustomRole(scheduledEvent)`: computes the role name (policy
above) and asks the guild to create the role; yields the created role,
`none` when the API returned nothing, or the thrown error. -/
def createCustomRole (env : Env) (e : ScheduledEvent) :
    Except ExtError (Option Role) :=
  match env.createRoleResult with
  | .error err => .error err
  | .ok none => .ok none
  | .ok (some rid) => .ok (some ⟨rid, roleName env.truncate e⟩)

/-- `createEventDBEntry(scheduledEvent, roleId)`: writes the row and, when
the write reports at least one affected row, sends the
`customRoleQueue.processQueues()` drain signal and reports `true`;
zero affected rows leaves the state untouched and reports `false`. -/
def createEventDBEntry (env : Env) (e : ScheduledEvent) (roleId : String)
    (s : ServiceState) : Except ExtError Bool × ServiceState :=
  match env.writeResult with
  | .error err => (.error err, s)
  | .ok response =>
      if response > 0 then
        (.ok true,
         { s with db := s.db ++ [⟨e.id, roleId⟩],
                  drainSignals := s.drainSignals + 1 })
      else (.ok false, s)

/-- Body of `processEvent` as it stands inside the `try` block: guild
check, record lookup, role creation, database write.  An `.error` result
is an exception in flight that the outer `catch` will convert. -/
def processEventBody (env : Env) (e : ScheduledEvent) (s : ServiceState) :
    Except ExtError (Option ResolvedEvent) × ServiceState :=
  if e.hasGuild = false then (.ok none, s)
  else
    match env.findResult with
    | .error err => (.error err, s)
    | .ok _ =>
        match lookupRecord s.db e.id with
        | some dbEntry => (.ok (some ⟨e, dbEntry.roleId⟩), s)
        | none =>
            match createCustomRole env e with
            | .error err => (.error err, s)
            | .ok none => (.ok none, s)
            | .ok (some role) =>
                let s1 := { s with createdRoles := s.createdRoles ++ [role] }
                match createEventDBEntry env e role.id s1 with
                | (.error err, s2) => (.error err, s2)
                | (.ok false, s2) => (.ok none, s2)
                | (.ok true, s2) => (.ok (some ⟨e, role.id⟩), s2)

/-- Public `processEvent`: the body wrapped in `try`/`catch`; every thrown
error is caught, logged and converted to a `null` result. -/
def processEvent (env : Env) (e : ScheduledEvent) (s : ServiceState) :
    Option ResolvedEvent × ServiceState :=
  match processEventBody env e s with
  | (.ok r, s1) => (r, s1)
  | (.error _, s1) => (none, s1)

/-- Public `batchProcessEvents`: iterates the input map in order, pushing
each `processEvent` result (the per-item `catch` pushes `null`, but
`processEvent` already never throws).  The oracle may differ per event. -/
def batchProcessEvents (envf : ScheduledEvent → Env) :
    List ScheduledEvent → ServiceState →
    List (Option ResolvedEvent) × ServiceState
  | [], s => ([], s)
  | e :: rest, s =>
      let step := processEvent (envf e) e s
      let tail := batchProcessEvents envf rest step.2
      (step.1 :: tail.1, tail.2)

/-- Public `getEventRoleId(eventId)`: a bare database read with no
`try`/`catch` — a thrown persistence error propagates to the caller.
`dbEvent?.roleId || null` also maps a falsy (empty) stored role id to
`null`. -/
def getEventRoleId (env : Env) (eventId : String) (s : ServiceState) :
    Except ExtError (Option String) :=
  match env.findResult with
  | .error err => .error err
  | .ok _ =>
      match lookupRecord s.db eventId with
      | none => .ok none
      | some dbEntry =>
          .ok (if dbEntry.roleId = "" then none else some dbEntry.roleId)

/-- Public `getEventRole(scheduledEvent)`: guild check, role-id lookup
(uncaught), then `guild.roles.fetch(roleId)` inside a `try`/`catch` that
converts a fetch error to `null`. -/
def getEventRole (env : Env) (e : ScheduledEvent) (s : ServiceState) :
    Except ExtError (Option Role) :=
  if e.hasGuild = false then .ok none
  else
    match getEventRoleId env e.id s with
    | .error err => .error err
    | .ok none => .ok none
    | .ok (some _) =>
        match env.fetchRoleResult with
        | .error _ => .ok none
        | .ok r => .ok r

/-! ## Startup reconciliation listener (`eventInit.ts`) -/

/-- Inner subscriber loop of `OnClientReady.run` (lines 69-84): skip a
subscriber without a member, refresh the member, and queue an assignment
intent exactly when the fresh role cache holds no role with the resolved
id. -/
def reconcileSubscribers (e : ScheduledEvent) (roleId : String) :
    List Subscriber → List Assignment
  | [] => []
  | sub :: rest =>
      match sub.member with
      | none => reconcileSubscribers e roleId rest
      | some member =>
          match member.roles.find? (fun r => r = roleId) with
          | none => ⟨e.id, member.userId⟩ :: reconcileSubscribers e roleId rest
          | some _ => reconcileSubscribers e roleId rest

/-- Outer loop of `OnClientReady.run` over the batch results (lines
49-85): skip `null` results, look up the role id (an uncaught throw here
propagates out of `run`), skip events without one, fetch the subscribers
(also uncaught) and queue the missing assignments. -/
def passLoop (envf : ScheduledEvent → Env) :
    List (Option ResolvedEvent) → ServiceState →
    Except ExtError ServiceState
  | [], s => .ok s
  | none :: rest, s => passLoop envf rest s
  | some re :: rest, s =>
      match getEventRoleId (envf re.event) re.event.id s with
      | .error err => .error err
      | .ok none => passLoop envf rest s
      | .ok (some roleId) =>
          match (envf re.event).fetchSubscribersResult with
          | .error err => .error err
          | .ok _ =>
              passLoop envf rest
                { s with assignments := s.assignments ++
                    reconcileSubscribers re.event roleId re.event.subscribers }

/-- Outcome of the guild and scheduled-event fetches that open
`OnClientReady.run` (both uncaught). -/
structure PassEnv where
  eventsResult : Except ExtError (List ScheduledEvent)

/-- `OnClientReady.run`: fetch the guild's events, batch-process them,
then reconcile each resolved event's subscribers against the resolved
role.  No `try`/`catch` anywhere in this listener. -/
def OnClientReady.run (penv : PassEnv) (envf : ScheduledEvent → Env)
    (s : ServiceState) : Except ExtError ServiceState :=
  match penv.eventsResult with
  | .error err => .error err
  | .ok events =>
      let batch := batchProcessEvents envf events s
      passLoop envf batch.1 batch.2

/-! ## Concrete fixtures used by witnesses and counterexamples -/

/-- Oracle round in which every external call succeeds: the store does not
throw, `roles.create` yields id `newRole`, the write reports one affected
row, `roles.fetch` finds nothing, and truncation is the identity. -/
def envOk : Env :=
  ⟨.ok (), .ok (some "newRole"), .ok 1, .ok none, .ok (), id⟩

/-- Like `envOk` but the persistence write reports zero affected rows. -/
def envZeroRows : Env := { envOk with writeResult := .ok 0 }

/-- Like `envOk` but `roles.create` returns a null result. -/
def envNullRole : Env := { envOk with createRoleResult := .ok none }

/-- Like `envOk` but every `database.findScheduledEvent` call throws. -/
def envDbThrow : Env := { envOk with findResult := .error .dbError }

/-- Like `envOk` but `guild.roles.fetch` throws. -/
def envFetchThrow : Env := { envOk with fetchRoleResult := .error .apiError }

/-- A weekly recurring event named Standup. -/
def eventStandup : ScheduledEvent :=
  ⟨"ev-standup", "Standup", true, none, some ⟨2⟩, []⟩

/-- A non-recurring event starting 2025-03-03 18:00 UTC. -/
def eventBoardGame : ScheduledEvent :=
  ⟨"ev-bgn", "Board Game Night", true, some 1741024800000, none, []⟩

/-- An event whose guild is not resolvable, with id `e1`. -/
def eventGhost : ScheduledEvent := ⟨"e1", "Ghost", false, none, none, []⟩

/-- A guild-resolvable event with id `e1` (already linked in `stateRec`). -/
def eventLinked : ScheduledEvent := ⟨"e1", "Linked", true, none, none, []⟩

/-- The empty service state: no rows, no roles, no signals, no intents. -/
def stateEmpty : ServiceState := ⟨[], [], 0, []⟩

/-- State holding the persisted record `{eventId := e1, roleId := r1}`. -/
def stateRec : ServiceState := ⟨[⟨"e1", "r1"⟩], [], 0, []⟩

/-! ## Claims C8, C9, C10: the role-name policy -/

/-- Claim C8: for every event with a recurrence rule the created role's
name is the truncated event name followed by the bracketed frequency
label, where 0 maps to Yearly, 1 to Monthly, 2 to Weekly, 3 to Daily and
every other frequency yields an empty label. -/
theorem roleName_recurring_mapping (truncate : String → String)
    (e : ScheduledEvent) (rule : RecurrenceRule)
    (h : e.recurrenceRule = some rule) :
    roleName truncate e =
      truncate e.name ++ " [" ++ freqString rule.frequency ++ "]" ∧
    (rule.frequency = 0 → freqString rule.frequency = "Yearly") ∧
    (rule.frequency = 1 → freqString rule.frequency = "Monthly") ∧
    (rule.frequency = 2 → freqString rule.frequency = "Weekly") ∧
    (rule.frequency = 3 → freqString rule.frequency = "Daily") ∧
    (rule.frequency ≠ 0 → rule.frequency ≠ 1 → rule.frequency ≠ 2 →
      rule.frequency ≠ 3 → freqString rule.frequency = "") := by
  refine ⟨by simp [roleName, h], ?_, ?_, ?_, ?_, ?_⟩
  · intro h0; simp [freqString, h0]
  · intro h1; simp [freqString, h1]
  · intro h2; simp [freqString, h2]
  · intro h3; simp [freqString, h3]
  · intro h0 h1 h2 h3; simp [freqString, h0, h1, h2, h3]

/-- Closed instance of the recurring naming policy: Standup with weekly
frequency gives `Standup [Weekly]`, and an unrecognised frequency 7 gives
`Standup []`. -/
theorem roleName_recurring_mapping_witness :
    roleName id eventStandup = "Standup [Weekly]" ∧
    roleName id { eventStandup with recurrenceRule := some ⟨7⟩ } =
      "Standup []" := by
  have h2 := roleName_recurring_mapping id eventStandup ⟨2⟩ rfl
  have h7 := roleName_recurring_mapping id
    { eventStandup with recurrenceRule := some ⟨7⟩ } ⟨7⟩ rfl
  exact ⟨by rw [h2.1]; rfl, by rw [h7.1]; rfl⟩

/-- Claim C9: for every event with no recurrence rule the created role's
name is the truncated event name followed by the bracketed start time,
rendered with the `MMM-DD HH:mm` pattern (checked on the spec's example
timestamp 2025-03-03T18:00Z). -/
theorem roleName_nonRecurring_format (truncate : String → String)
    (e : ScheduledEvent) (h : e.recurrenceRule = none) :
    roleName truncate e = truncate e.name ++ " [" ++
      displayTimestamp (startFallback e.scheduledStartTimestamp) ++ "]" ∧
    displayTimestamp 1741024800000 = "Mar-03 18:00" := by
  exact ⟨by simp [roleName, h], by decide⟩

/-- Closed instance of the non-recurring naming policy: the Board Game
Night event starting Mar 03 18:00 gives `Board Game Night [Mar-03 18:00]`. -/
theorem roleName_nonRecurring_format_witness :
    roleName id eventBoardGame = "Board Game Night [Mar-03 18:00]" := by
  have h := roleName_nonRecurring_format id eventBoardGame rfl
  rw [h.1]; rfl

/-- Claim C10: for a non-recurring event whose start timestamp is absent
or exactly 0, the role name is formatted from the Unix epoch, and the two
cases are indistinguishable. -/
theorem roleName_epochFallback (truncate : String → String)
    (e : ScheduledEvent) (h : e.recurrenceRule = none)
    (h0 : e.scheduledStartTimestamp = none ∨
          e.scheduledStartTimestamp = some 0) :
    roleName truncate e =
      truncate e.name ++ " [" ++ displayTimestamp 0 ++ "]" ∧
    displayTimestamp 0 = "Jan-01 00:00" ∧
    roleName truncate { e with scheduledStartTimestamp := none } =
      roleName truncate { e with scheduledStartTimestamp := some 0 } := by
  refine ⟨?_, by decide, ?_⟩
  · rcases h0 with h0 | h0 <;> simp [roleName, h, h0, startFallback]
  · simp [roleName, h, startFallback]

/-- Closed instance of the epoch fallback: Board Game Night without a
start timestamp is named from the epoch, identically to a start timestamp
of exactly 0. -/
theorem roleName_epochFallback_witness :
    roleName id { eventBoardGame with scheduledStartTimestamp := none } =
      "Board Game Night [Jan-01 00:00]" ∧
    roleName id { eventBoardGame with scheduledStartTimestamp := none } =
      roleName id { eventBoardGame with scheduledStartTimestamp := some 0 } := by
  have h := roleName_epochFallback id
    { eventBoardGame with scheduledStartTimestamp := none } rfl (Or.inl rfl)
  refine ⟨by rw [h.1]; rfl, ?_⟩
  have h3 := h.2.2
  simpa using h3

/-! ## Helper lemmas about the service step -/

/-- When the record for the event is already persisted (and the event has
a guild and the lookup call completes), `processEvent` returns the event
annotated with the stored role id and changes nothing. -/
lemma processEvent_found (env : Env) (e : ScheduledEvent) (s : ServiceState)
    (rec : EventRecord) (hg : e.hasGuild = true)
    (hf : env.findResult = .ok ())
    (hrec : lookupRecord s.db e.id = some rec) :
    processEvent env e s = (some ⟨e, rec.roleId⟩, s) := by
  simp [processEvent, processEventBody, hg, hf, hrec]

/-- The drain signal counter moves only when the persistence write
reported a positive number of affected rows. -/
lemma processEvent_drainSignals (env : Env) (e : ScheduledEvent)
    (s : ServiceState) (h : ¬ ∃ n, env.writeResult = .ok n ∧ 0 < n) :
    (processEvent env e s).2.drainSignals = s.drainSignals := by
  by_cases hg : e.hasGuild = false
  · simp [processEvent, processEventBody, hg]
  · rcases hfind : env.findResult with err | u
    · simp [processEvent, processEventBody, hg, hfind]
    · rcases hlook : lookupRecord s.db e.id with _ | rec
      · rcases hcr : env.createRoleResult with err | o
        · simp [processEvent, processEventBody, createCustomRole,
            hg, hfind, hlook, hcr]
        · rcases o with _ | rid
          · simp [processEvent, processEventBody, createCustomRole,
              hg, hfind, hlook, hcr]
          · rcases hw : env.writeResult with err | n
            · simp [processEvent, processEventBody, createCustomRole,
                createEventDBEntry, hg, hfind, hlook, hcr, hw]
            · have hn : ¬ n > 0 := fun hpos => h ⟨n, hw, hpos⟩
              simp [processEvent, processEventBody, createCustomRole,
                createEventDBEntry, hg, hfind, hlook, hcr, hw, hn]
      · simp [processEvent, processEventBody, hg, hfind, hlook]

/-! ## Claim C6: role-creation failure is atomic -/

/-- Claim C6: for an event not yet recorded, when the role-creation call
throws or returns a null result, `processEvent` reports failure and the
whole state — in particular the persistence store — is unchanged: no
record write is performed. -/
theorem processEvent_roleCreationFailure_atomic (env : Env)
    (e : ScheduledEvent) (s : ServiceState)
    (hg : e.hasGuild = true) (hf : env.findResult = .ok ())
    (hno : lookupRecord s.db e.id = none)
    (hcr : (∃ err, env.createRoleResult = .error err) ∨
           env.createRoleResult = .ok none) :
    processEvent env e s = (none, s) := by
  rcases hcr with ⟨err, hcr⟩ | hcr <;>
    simp [processEvent, processEventBody, createCustomRole,
      hg, hf, hno, hcr]

/-- Closed instance of C6: a null `roles.create` result on a fresh event
yields a null result and leaves the empty state untouched. -/
theorem processEvent_roleCreationFailure_atomic_witness :
    processEvent envNullRole eventBoardGame stateEmpty = (none, stateEmpty) :=
  processEvent_roleCreationFailure_atomic envNullRole eventBoardGame
    stateEmpty rfl rfl rfl (Or.inr rfl)

/-! ## Claim C3: persistence-write failure withholds the drain signal -/

/-- Claim C3: when the write reports zero affected rows after the role was
created, `processEvent` reports failure, the store and signal counter are
unchanged (only the created role remains), and — for any call whatsoever —
the drain signal is sent only when the write reported at least one
affected row. -/
theorem processEvent_persistFailure_noSignal (env : Env)
    (e : ScheduledEvent) (s : ServiceState) (rid : String)
    (hg : e.hasGuild = true) (hf : env.findResult = .ok ())
    (hno : lookupRecord s.db e.id = none)
    (hcr : env.createRoleResult = .ok (some rid))
    (hw : env.writeResult = .ok 0) :
    processEvent env e s = (none, { s with createdRoles :=
      s.createdRoles ++ [⟨rid, roleName env.truncate e⟩] }) ∧
    ∀ env2 e2 s2,
      (processEvent env2 e2 s2).2.drainSignals ≠ s2.drainSignals →
        ∃ n, env2.writeResult = .ok n ∧ 0 < n := by
  constructor
  · simp [processEvent, processEventBody, createCustomRole,
      createEventDBEntry, hg, hf, hno, hcr, hw]
  · intro env2 e2 s2 hne
    by_contra hnot
    exact hne (processEvent_drainSignals env2 e2 s2 hnot)

/-- Closed instance of C3: a zero-affected-rows write on the Board Game
Night event returns failure, writes no record, sends no signal, and
leaves only the orphan role behind. -/
theorem processEvent_persistFailure_noSignal_witness :
    processEvent envZeroRows eventBoardGame stateEmpty =
      (none, { stateEmpty with createdRoles :=
        [⟨"newRole", "Board Game Night [Mar-03 18:00]"⟩] }) ∧
    (processEvent envZeroRows eventBoardGame stateEmpty).2.drainSignals =
      stateEmpty.drainSignals := by
  have h := processEvent_persistFailure_noSignal envZeroRows eventBoardGame
    stateEmpty "newRole" rfl rfl rfl rfl rfl
  constructor
  · rw [h.1]; decide
  · rw [h.1]

/-- After any successful `processEvent` call, the resulting store holds a
record linking the event id to the returned `customRoleId`. -/
lemma processEvent_some_lookup (env : Env) (e : ScheduledEvent)
    (s : ServiceState) (re : ResolvedEvent) (s1 : ServiceState)
    (h : processEvent env e s = (some re, s1)) :
    lookupRecord s1.db e.id = some ⟨e.id, re.customRoleId⟩ := by
  by_cases hg : e.hasGuild = false
  · simp [processEvent, processEventBody, hg] at h
  · rcases hfind : env.findResult with err | u
    · simp [processEvent, processEventBody, hg, hfind] at h
    · rcases hlook : lookupRecord s.db e.id with _ | rec
      · rcases hcr : env.createRoleResult with err | o
        · simp [processEvent, processEventBody, createCustomRole,
            hg, hfind, hlook, hcr] at h
        · rcases o with _ | rid
          · simp [processEvent, processEventBody, createCustomRole,
              hg, hfind, hlook, hcr] at h
          · rcases hw : env.writeResult with err | n
            · simp [processEvent, processEventBody, createCustomRole,
                createEventDBEntry, hg, hfind, hlook, hcr, hw] at h
            · by_cases hn : n > 0
              · simp [processEvent, processEventBody, createCustomRole,
                  createEventDBEntry, hg, hfind, hlook, hcr, hw, hn] at h
                obtain ⟨hre, hs⟩ := h
                subst hs
                rw [← hre]
                simp only [lookupRecord] at hlook ⊢
                simp [List.find?_append, hlook]
              · simp [processEvent, processEventBody, createCustomRole,
                  createEventDBEntry, hg, hfind, hlook, hcr, hw, hn] at h
      · simp [processEvent, processEventBody, hg, hfind, hlook] at h
        obtain ⟨hre, hs⟩ := h
        subst hs
        have hev : rec.eventId = e.id := by
          have hp := List.find?_some hlook
          simpa using hp
        rw [← hre]
        rw [hlook]
        cases rec
        simp at hev
        simp [hev]

/-! ## Claim C1: idempotent creation -/

/-- Counterexample to C1 as stated: the record for event id `e1` is
persisted, yet `processEvent` on the guildless event `e1` returns a null
result instead of success annotated with the persisted role id — the
guild check runs before the record lookup. -/
theorem processEvent_guildless_ignores_record :
    lookupRecord stateRec.db eventGhost.id = some ⟨"e1", "r1"⟩ ∧
    processEvent envOk eventGhost stateRec = (none, stateRec) := by
  exact ⟨rfl, rfl⟩

/-- Claim C1 (amended with the guild and lookup-completion conditions the
counterexample forces): for an event with a resolvable guild, if its
record is persisted then `processEvent` returns success annotated with the
stored role id, changing nothing — the lookup runs before any
role-creation side effect; hence whenever a first call succeeds, an
immediately repeated call changes nothing and returns the same role id. -/
theorem processEvent_idempotent_when_guild (env1 env2 : Env)
    (e : ScheduledEvent) (s : ServiceState)
    (hg : e.hasGuild = true)
    (hf1 : env1.findResult = .ok ())
    (hf2 : env2.findResult = .ok ()) :
    (∀ rec, lookupRecord s.db e.id = some rec →
        processEvent env1 e s = (some ⟨e, rec.roleId⟩, s)) ∧
    (∀ re s1, processEvent env1 e s = (some re, s1) →
        processEvent env2 e s1 = (some ⟨e, re.customRoleId⟩, s1)) := by
  constructor
  · intro rec hrec
    exact processEvent_found env1 e s rec hg hf1 hrec
  · intro re s1 h
    exact processEvent_found env2 e s1 ⟨e.id, re.customRoleId⟩ hg hf2
      (processEvent_some_lookup env1 e s re s1 h)

/-- Closed instance of amended C1: with the `e1 ↦ r1` record persisted, a
first call on the linked event succeeds, and the repeated call driven by
the first call's result returns the same role id with the state
untouched. -/
theorem processEvent_idempotent_when_guild_witness :
    processEvent envOk eventLinked stateRec =
      (some ⟨eventLinked, "r1"⟩, stateRec) := by
  have h := processEvent_idempotent_when_guild envOk envOk eventLinked
    stateRec rfl rfl rfl
  exact h.2 ⟨eventLinked, "r1"⟩ stateRec (h.1 ⟨"e1", "r1"⟩ rfl)

/-! ## Claim C2: batch isolation -/

/-- Claim C2: the batch output has one slot per input event in input
order, slot `k` holding exactly the outcome of processing event `k` in the
state reached after the first `k` events — so it is `null` precisely when
event `k` failed, and a failure at one position never prevents the
processing of later positions. -/
theorem batchProcessEvents_isolation (envf : ScheduledEvent → Env)
    (es : List ScheduledEvent) (s : ServiceState) :
    (batchProcessEvents envf es s).1.length = es.length ∧
    ∀ k : Nat, (hk : k < es.length) →
      (batchProcessEvents envf es s).1[k]? =
        some (processEvent (envf es[k]) es[k]
          (batchProcessEvents envf (es.take k) s).2).1 := by
  constructor
  · induction es generalizing s with
    | nil => rfl
    | cons e rest ih => simp [batchProcessEvents, ih]
  · intro k hk
    induction es generalizing s k with
    | nil => exact absurd hk (by simp)
    | cons e rest ih =>
      cases k with
      | zero => simp [batchProcessEvents]
      | succ k =>
        simp only [batchProcessEvents, List.getElem?_cons_succ,
          List.take_succ_cons, List.getElem_cons_succ]
        exact ih (processEvent (envf e) e s).2 k (by simpa using hk)

/-- Closed instance of C2: a two-event batch whose first event fails (no
guild) still produces a slot for both events, `null` at position 0 and the
resolved second event at position 1. -/
theorem batchProcessEvents_isolation_witness :
    (batchProcessEvents (fun _ => envOk) [eventGhost, eventBoardGame]
        stateEmpty).1.length = 2 ∧
    (batchProcessEvents (fun _ => envOk) [eventGhost, eventBoardGame]
        stateEmpty).1[0]? = some none ∧
    (batchProcessEvents (fun _ => envOk) [eventGhost, eventBoardGame]
        stateEmpty).1[1]? =
      some (some ⟨eventBoardGame, "newRole"⟩) := by
  have h := batchProcessEvents_isolation (fun _ => envOk)
    [eventGhost, eventBoardGame] stateEmpty
  refine ⟨h.1, ?_, ?_⟩
  · rw [h.2 0 (by decide)]; decide
  · rw [h.2 1 (by decide)]; decide

/-! ## Claim C5: reconciliation completeness -/

/-- The subscriber loop queues exactly one intent per subscriber whose
(present) fresh member role set lacks the resolved role id, in subscriber
order, and none for a member already holding it. -/
lemma reconcileSubscribers_eq_filterMap (e : ScheduledEvent)
    (roleId : String) (subs : List Subscriber) :
    reconcileSubscribers e roleId subs =
      subs.filterMap (fun sub => sub.member.bind (fun m =>
        if roleId ∈ m.roles then none
        else some ⟨e.id, m.userId⟩)) := by
  induction subs with
  | nil => rfl
  | cons sub rest ih =>
    cases hm : sub.member with
    | none => simp [reconcileSubscribers, hm, ih]
    | some m =>
      by_cases hr : roleId ∈ m.roles
      · have hsome : (m.roles.find? (fun r => r = roleId)).isSome :=
          List.find?_isSome.mpr ⟨roleId, hr, by simp⟩
        rcases hfind : m.roles.find? (fun r => r = roleId) with _ | x
        · rw [hfind] at hsome
          simp at hsome
        · simp [reconcileSubscribers, hm, hfind, hr, ih]
      · have hf : m.roles.find? (fun r => r = roleId) = none := by
          rw [List.find?_eq_none]
          intro x hx
          simp only [decide_eq_true_eq]
          exact fun hxr => hr (hxr ▸ hx)
        simp [reconcileSubscribers, hm, hf, hr, ih]

/-- Claim C5: for a non-null resolved event whose role id resolves to `R`
(and whose subscriber fetch completes), the pass extends the queued
assignments with exactly one intent per subscriber whose fresh member role
set lacks `R` — and none for a subscriber already holding `R`. -/
theorem passLoop_enqueues_missing (envf : ScheduledEvent → Env)
    (re : ResolvedEvent) (s : ServiceState) (R : String)
    (hrid : getEventRoleId (envf re.event) re.event.id s = .ok (some R))
    (hsub : (envf re.event).fetchSubscribersResult = .ok ()) :
    passLoop envf [some re] s = .ok { s with assignments :=
      s.assignments ++ re.event.subscribers.filterMap (fun sub =>
        sub.member.bind (fun m =>
          if R ∈ m.roles then none
          else some ⟨re.event.id, m.userId⟩)) } := by
  simp [passLoop, hrid, hsub, reconcileSubscribers_eq_filterMap]

/-- Closed instance of C5: an event with three subscribers of which
exactly one already holds role `R` queues exactly two intents, one per
subscriber lacking `R`, in subscriber order. -/
theorem passLoop_enqueues_missing_witness :
    passLoop (fun _ => envOk)
      [some ⟨⟨"ev-party", "Party", true, none, none,
        [⟨"u1", some ⟨"u1", []⟩⟩,
         ⟨"u2", some ⟨"u2", ["R"]⟩⟩,
         ⟨"u3", some ⟨"u3", ["other"]⟩⟩]⟩, "R"⟩]
      ⟨[⟨"ev-party", "R"⟩], [], 0, []⟩ =
    .ok ⟨[⟨"ev-party", "R"⟩], [], 0,
      [⟨"ev-party", "u1"⟩, ⟨"ev-party", "u3"⟩]⟩ := by
  have h := passLoop_enqueues_missing (fun _ => envOk)
    ⟨⟨"ev-party", "Party", true, none, none,
      [⟨"u1", some ⟨"u1", []⟩⟩,
       ⟨"u2", some ⟨"u2", ["R"]⟩⟩,
       ⟨"u3", some ⟨"u3", ["other"]⟩⟩]⟩, "R"⟩
    ⟨[⟨"ev-party", "R"⟩], [], 0, []⟩ "R" rfl rfl
  rw [h]
  congr 1

/-! ## Claim C7: record immutability -/

/-- One `processEvent` call either leaves the store as it was or appends a
single fresh row for an event id that had no row before; no row is ever
rewritten or removed. -/
lemma processEvent_db_cases (env : Env) (e : ScheduledEvent)
    (s : ServiceState) :
    (processEvent env e s).2.db = s.db ∨
    (lookupRecord s.db e.id = none ∧ ∃ rid,
      (processEvent env e s).2.db = s.db ++ [⟨e.id, rid⟩]) := by
  by_cases hg : e.hasGuild = false
  · left; simp [processEvent, processEventBody, hg]
  · rcases hfind : env.findResult with err | u
    · left; simp [processEvent, processEventBody, hg, hfind]
    · rcases hlook : lookupRecord s.db e.id with _ | rec
      · rcases hcr : env.createRoleResult with err | o
        · left
          simp [processEvent, processEventBody, createCustomRole,
            hg, hfind, hlook, hcr]
        · rcases o with _ | rid
          · left
            simp [processEvent, processEventBody, createCustomRole,
              hg, hfind, hlook, hcr]
          · rcases hw : env.writeResult with err | n
            · left
              simp [processEvent, processEventBody, createCustomRole,
                createEventDBEntry, hg, hfind, hlook, hcr, hw]
            · by_cases hn : n > 0
              · right
                refine ⟨hlook ▸ rfl, rid, ?_⟩
                simp [processEvent, processEventBody, createCustomRole,
                  createEventDBEntry, hg, hfind, hlook, hcr, hw, hn]
              · left
                simp [processEvent, processEventBody, createCustomRole,
                  createEventDBEntry, hg, hfind, hlook, hcr, hw, hn]
      · left; simp [processEvent, processEventBody, hg, hfind, hlook]

/-- A persisted row keeps resolving unchanged across any `processEvent`
call. -/
lemma processEvent_preserves_record (env : Env) (e : ScheduledEvent)
    (s : ServiceState) (rec : EventRecord)
    (h : lookupRecord s.db rec.eventId = some rec) :
    lookupRecord (processEvent env e s).2.db rec.eventId = some rec := by
  rcases processEvent_db_cases env e s with hdb | ⟨_, rid, hdb⟩
  · rw [hdb]; exact h
  · rw [hdb]
    simp only [lookupRecord] at h ⊢
    simp [List.find?_append, h]

/-- A persisted row keeps resolving unchanged across a whole batch. -/
lemma batchProcessEvents_preserves_record (envf : ScheduledEvent → Env)
    (es : List ScheduledEvent) (s : ServiceState) (rec : EventRecord)
    (h : lookupRecord s.db rec.eventId = some rec) :
    lookupRecord (batchProcessEvents envf es s).2.db rec.eventId =
      some rec := by
  induction es generalizing s with
  | nil => simpa [batchProcessEvents] using h
  | cons e rest ih =>
    simp only [batchProcessEvents]
    exact ih _ (processEvent_preserves_record (envf e) e s rec h)

/-- The reconciliation loop never touches the persistence store. -/
lemma passLoop_db (envf : ScheduledEvent → Env)
    (out : List (Option ResolvedEvent)) (s s1 : ServiceState)
    (h : passLoop envf out s = .ok s1) : s1.db = s.db := by
  induction out generalizing s with
  | nil =>
    simp [passLoop] at h
    rw [← h]
  | cons o rest ih =>
    cases o with
    | none =>
      simp only [passLoop] at h
      exact ih s h
    | some re =>
      rcases hr : getEventRoleId (envf re.event) re.event.id s with err | o2
      · simp [passLoop, hr] at h
      · cases o2 with
        | none =>
          simp only [passLoop, hr] at h
          exact ih s h
        | some rid =>
          rcases hs : (envf re.event).fetchSubscribersResult with err | u
          · simp [passLoop, hr, hs] at h
          · simp only [passLoop, hr, hs] at h
            simpa using ih _ h

/-- Claim C7: once an EventRecord exists it is never updated or deleted:
every service call and the reconciliation pass preserve it, a resolve of
an already-recorded event changes nothing (so no replacement role is
created after the external role is deleted), and with the role gone the
deletion surfaces only as a null result of `getEventRole`. -/
theorem eventRecord_immutable :
    (∀ env e s rec, lookupRecord s.db rec.eventId = some rec →
        lookupRecord (processEvent env e s).2.db rec.eventId = some rec) ∧
    (∀ envf es s rec, lookupRecord s.db rec.eventId = some rec →
        lookupRecord (batchProcessEvents envf es s).2.db rec.eventId =
          some rec) ∧
    (∀ envf out s s1, passLoop envf out s = .ok s1 → s1.db = s.db) ∧
    (∀ env e s rec, e.hasGuild = true → env.findResult = .ok () →
        lookupRecord s.db e.id = some rec → (processEvent env e s).2 = s) ∧
    (∀ env e s, env.findResult = .ok () →
        (env.fetchRoleResult = .ok none ∨
         ∃ err, env.fetchRoleResult = .error err) →
        getEventRole env e s = .ok none) := by
  refine ⟨processEvent_preserves_record,
    batchProcessEvents_preserves_record, passLoop_db, ?_, ?_⟩
  · intro env e s rec hg hf hrec
    rw [processEvent_found env e s rec hg hf hrec]
  · intro env e s hf hfetch
    by_cases hg : e.hasGuild = false
    · simp [getEventRole, hg]
    · rcases hlook : lookupRecord s.db e.id with _ | rec
      · simp [getEventRole, getEventRoleId, hg, hf, hlook]
      · by_cases hrid : rec.roleId = ""
        · simp [getEventRole, getEventRoleId, hg, hf, hlook, hrid]
        · rcases hfetch with hfetch | ⟨err, hfetch⟩ <;>
            simp [getEventRole, getEventRoleId, hg, hf, hlook, hrid, hfetch]

/-- Closed instance of C7: with `e1 ↦ r1` persisted, resolving the linked
event again, running a batch and running the pass all keep the record, and
with the role deleted externally `getEventRole` yields null. -/
theorem eventRecord_immutable_witness :
    lookupRecord (processEvent envOk eventLinked stateRec).2.db "e1" =
      some ⟨"e1", "r1"⟩ ∧
    lookupRecord (batchProcessEvents (fun _ => envOk) [eventBoardGame]
      stateRec).2.db "e1" = some ⟨"e1", "r1"⟩ ∧
    (processEvent envOk eventLinked stateRec).2 = stateRec ∧
    getEventRole envFetchThrow eventLinked stateRec = .ok none := by
  have h := eventRecord_immutable
  exact ⟨h.1 envOk eventLinked stateRec ⟨"e1", "r1"⟩ rfl,
    h.2.1 (fun _ => envOk) [eventBoardGame] stateRec ⟨"e1", "r1"⟩ rfl,
    h.2.2.2.1 envOk eventLinked stateRec ⟨"e1", "r1"⟩ rfl rfl rfl,
    h.2.2.2.2 envFetchThrow eventLinked stateRec rfl
      (Or.inr ⟨.apiError, rfl⟩)⟩

/-! ## Claim C4: error containment at the public boundary -/

/-- Counterexample to C4 as stated: `getEventRoleId` has no `try`/`catch`,
so a persistence-store error thrown during its lookup propagates to the
caller as a fault instead of becoming a null result; the same uncaught
call sits inside the startup pass. -/
theorem getEventRoleId_propagates_dbError :
    getEventRoleId envDbThrow "e1" stateEmpty =
      Except.error ExtError.dbError := rfl

/-- Under the all-throwing persistence oracle every event fails inside
`processEvent` and is caught there. -/
lemma processEvent_dbThrow (e : ScheduledEvent) (s : ServiceState) :
    processEvent envDbThrow e s = (none, s) := by
  by_cases hg : e.hasGuild = false <;>
    simp [processEvent, processEventBody, envDbThrow, envOk, hg]

/-- Claim C4 (amended as the counterexample forces): `processEvent`
converts every error thrown inside its body to a null result at the state
reached when the throw happened; with a throwing persistence store a whole
batch still yields one null per input and leaves the state untouched; and
`getEventRole` converts role-fetch errors to null whenever its (uncaught)
lookup step completes.  `getEventRoleId` itself propagates store errors. -/
theorem errorContainment_partial :
    (∀ env e s err s1, processEventBody env e s = (.error err, s1) →
        processEvent env e s = (none, s1)) ∧
    (∀ es s, batchProcessEvents (fun _ => envDbThrow) es s =
        (es.map fun _ => none, s)) ∧
    (∀ env e s, env.findResult = .ok () →
        (getEventRole env e s).isOk = true) := by
  refine ⟨?_, ?_, ?_⟩
  · intro env e s err s1 h
    simp [processEvent, h]
  · intro es s
    induction es generalizing s with
    | nil => rfl
    | cons e rest ih => simp [batchProcessEvents, processEvent_dbThrow, ih]
  · intro env e s hf
    by_cases hg : e.hasGuild = false
    · simp [getEventRole, hg, Except.isOk, Except.toBool]
    · rcases hlook : lookupRecord s.db e.id with _ | rec
      · simp [getEventRole, getEventRoleId, hg, hf, hlook,
          Except.isOk, Except.toBool]
      · by_cases hrid : rec.roleId = ""
        · simp [getEventRole, getEventRoleId, hg, hf, hlook, hrid,
            Except.isOk, Except.toBool]
        · rcases hfetch : env.fetchRoleResult with err | r <;>
            simp [getEventRole, getEventRoleId, hg, hf, hlook, hrid,
              hfetch, Except.isOk, Except.toBool]

/-- Closed instance of amended C4: a throwing store is caught by
`processEvent`, a throwing batch returns all nulls, and a throwing role
fetch is caught by `getEventRole`. -/
theorem errorContainment_partial_witness :
    processEvent envDbThrow eventBoardGame stateEmpty =
      (none, stateEmpty) ∧
    batchProcessEvents (fun _ => envDbThrow) [eventBoardGame] stateEmpty =
      ([none], stateEmpty) ∧
    (getEventRole envFetchThrow eventLinked stateRec).isOk = true := by
  have h := errorContainment_partial
  refine ⟨h.1 envDbThrow eventBoardGame stateEmpty .dbError stateEmpty rfl,
    ?_, h.2.2 envFetchThrow eventLinked stateRec rfl⟩
  have hb := h.2.1 [eventBoardGame] stateEmpty
  simpa using hb

end Lovelace
